import Mathlib

/-!
Verification development for the blockwart/bundlewrap core:
the apply scheduler (`node.py`), the file-item attribute validators
(`items/files.py`) and the layered metadata store (`utils/metastack.py`).

Source functions are embedded shallowly: Python lists become `List`,
insertion-ordered dicts become association lists, exceptions become
`Except`/`Option`/`Bool` results.
-/

/- ===================== items/files.py ===================== -/

/-- Embeds Python `str.isdigit` for ASCII strings: non-empty and every
character a decimal digit (`"".isdigit()` is `False`). -/
def pyIsDigit (s : String) : Bool :=
  !s.isEmpty && s.data.all Char.isDigit

/-- Embeds `validator_mode` (files.py lines 46-61): `True` means the value is
accepted, `False` that a `BundleError` is raised. The source checks, in order:
`value.isdigit()`, then each digit `int(digit) > 7 or int(digit) < 0`, then
the length being 3 or 4. -/
def validator_mode (value : String) : Bool :=
  if !pyIsDigit value then false
  else if value.data.any (fun c => 7 < c.toNat - Char.toNat '0') then false
  else if !(value.length = 3) && !(value.length = 4) then false
  else true

/-- Embeds `CONTENT_PROCESSORS` (files.py lines 10-12): the keys of the
module-level dict, here just `"binary"`. -/
def CONTENT_PROCESSORS_keys : List String := ["binary"]

/-- Embeds `validator_content_type` (files.py lines 39-43): accepted iff the
value is a key of `CONTENT_PROCESSORS`. -/
def validator_content_type (value : String) : Bool :=
  value ∈ CONTENT_PROCESSORS_keys

/-- Embeds the `ATTRIBUTE_VALIDATORS` defaultdict (files.py lines 63-67):
`content_type` and `mode` map to their validators, every other key falls
back to the no-op `lambda id, value: None`. -/
def ATTRIBUTE_VALIDATORS (key : String) : String → Bool :=
  if key = "content_type" then validator_content_type
  else if key = "mode" then validator_mode
  else fun _ => true

/-- Embeds `File.validate_attributes` (files.py lines 114-116): runs the
registered validator on every (key, value) entry; `True` means no validator
raised. -/
def validate_attributes (attributes : List (String × String)) : Bool :=
  attributes.all (fun kv => ATTRIBUTE_VALIDATORS kv.1 kv.2)

/- ===================== node.py : items and graph builder ===================== -/

/-- An input (concrete) item as the scheduler sees it: `id`, the class-level
`DEPENDS_STATIC` list and the user-defined `depends` list. -/
structure InItem where
  id : String
  dependsStatic : List String
  depends : List String
deriving DecidableEq, Repr

/-- A graph node after `inject_dummy_items`: its `id`, the transient `_deps`
list, and whether it is a synthetic `DummyItem` (whose `apply` returns `None`,
node.py lines 54-55). -/
structure GItem where
  id : String
  deps : List String
  isDummy : Bool
deriving DecidableEq, Repr

/-- Embeds `item.id.split(":")[0]`: the portion of the id before the first
colon. -/
def itemType (s : String) : String :=
  String.mk (s.data.takeWhile (fun c => c ≠ ':'))

/-- One step of the dummy-collection dict: create the type's entry if absent
(`DummyItem` starts with empty `_deps`). -/
def ensureDummy (acc : List (String × List String)) (t : String) :
    List (String × List String) :=
  if acc.any (fun p => p.1 = t) then acc else acc ++ [(t, [])]

/-- Create the type's entry if absent, then append the item id to its
`_deps` (node.py lines 71-73). -/
def addDummyDep (acc : List (String × List String)) (t i : String) :
    List (String × List String) :=
  if acc.any (fun p => p.1 = t) then
    acc.map (fun p => if p.1 = t then (p.1, p.2 ++ [i]) else p)
  else acc ++ [(t, [i])]

/-- The `dummy_items` dict built by the loop of `inject_dummy_items`
(node.py lines 64-79), as an insertion-ordered association list from item
type to the dummy's `_deps`. -/
def collectDummies (items : List InItem) : List (String × List String) :=
  items.foldl (fun acc item =>
    let deps := item.dependsStatic ++ item.depends
    let acc := addDummyDep acc (itemType item.id) item.id
    deps.foldl (fun a d => ensureDummy a (itemType d)) acc) []

/-- Embeds `inject_dummy_items` (node.py lines 58-80): each item's `_deps`
becomes `DEPENDS_STATIC + depends` (list concatenation), a `DummyItem` of id
`"T:"` is materialized for every type seen, and the result is the dummy list
followed by the original items. -/
def inject_dummy_items (items : List InItem) : List GItem :=
  (collectDummies items).map (fun p => ⟨p.1 ++ ":", p.2, true⟩)
    ++ items.map (fun i => ⟨i.id, i.dependsStatic ++ i.depends, false⟩)

/-- Embeds `split_items_without_deps` (node.py lines 145-157): partitions a
list into (items with deps, items without deps), both in original order. -/
def split_items_without_deps (items : List GItem) :
    List GItem × List GItem :=
  (items.filter (fun i => !i.deps.isEmpty),
   items.filter (fun i => i.deps.isEmpty))

/-- Embeds `remove_dep_from_items` (node.py lines 160-170): Python
`list.remove` deletes the FIRST occurrence of `dep` from each item's `_deps`
(a no-op when absent), which `List.erase` matches exactly. -/
def remove_dep_from_items (items : List GItem) (dep : String) : List GItem :=
  items.map (fun i => { i with deps := i.deps.erase dep })

/- ===================== node.py : apply_items scheduler ===================== -/

/-- The reap phase of `apply_items` (node.py lines 109-125) on the
deterministic pool model: each finished worker is reaped in FIFO start order;
its item id is erased from the pending items' deps, and — exactly as in the
source — `items_without_deps` is REPLACED by the freshly freed items,
discarding whatever it held before. Dummy results (`None`) are not yielded.
Returns (pending, ready, reversed yields). -/
def reapAll : List GItem → List GItem → List GItem → List String →
    List GItem × List GItem × List String
  | [], pending, ready, acc => (pending, ready, acc)
  | d :: rest, pending, _, acc =>
    reapAll rest
      (split_items_without_deps (remove_dep_from_items pending d.id)).1
      (split_items_without_deps (remove_dep_from_items pending d.id)).2
      (if d.isDummy then acc else d.id :: acc)

/-- The main loop of `apply_items` (node.py lines 92-133) over a worker pool
modelled from the spec (the pool source is not in the repository): `w`
workers, a started task is immediately reapable, `get_idle_worker` succeeds
while fewer than `w` tasks are in flight, reaping is FIFO. Each iteration
dispatches up to `w` items popped from the END of the ready list, then reaps
them all. `fuel` bounds the number of iterations; the loop exits when no item
is ready (then nothing is in flight). Returns (yields, leftover items). -/
def schedLoop (w : Nat) : Nat → List GItem → List GItem → List String →
    List String × List GItem
  | 0, ready, pending, acc => (acc.reverse, ready ++ pending)
  | fuel + 1, ready, pending, acc =>
    if ready.isEmpty then (acc.reverse, pending)
    else
      schedLoop w fuel
        (reapAll (ready.reverse.take w) pending (ready.take (ready.length - w)) acc).2.1
        (reapAll (ready.reverse.take w) pending (ready.take (ready.length - w)) acc).1
        (reapAll (ready.reverse.take w) pending (ready.take (ready.length - w)) acc).2.2

/-- Runs `apply_items` (node.py lines 83-142) up to just before the final
cycle check: builds the graph, splits it, and iterates the loop with enough
fuel. Returns (yielded results as concrete item ids, items left pending at
loop exit). -/
def schedulerRun (items : List InItem) (w : Nat) :
    List String × List GItem :=
  schedLoop w ((inject_dummy_items items).length + 1)
    (split_items_without_deps (inject_dummy_items items)).2
    (split_items_without_deps (inject_dummy_items items)).1 []

/-- Embeds `apply_items` (node.py lines 83-142) end to end: after the loop,
a non-empty `items_with_deps` raises `ItemDependencyError` listing exactly
those items (node.py lines 137-142), embedded as `.error` with their ids. -/
def apply_items (items : List InItem) (w : Nat) :
    Except (List String) (List String) :=
  if (schedulerRun items w).2.isEmpty then .ok (schedulerRun items w).1
  else .error ((schedulerRun items w).2.map (fun i => i.id))

/-- Embeds `Node.apply` (node.py lines 225-232): the effective worker count
is `1 if interactive else workers`. -/
def Node.apply (items : List InItem) (interactive : Bool) (workers : Nat) :
    Except (List String) (List String) :=
  apply_items items (if interactive then 1 else workers)

/- ===================== helper lemmas : characters ===================== -/

/-- `'0' ≤ c` in the character order is a bound on the code point. -/
theorem char_le_toNat_left (c : Char) : ('0' ≤ c) ↔ (48 ≤ c.toNat) := by
  simp [Char.le_def, UInt32.le_def, Char.toNat, UInt32.toNat, BitVec.le_def]

/-- `c ≤ '7'` in the character order is a bound on the code point. -/
theorem char_le_toNat_right (c : Char) : (c ≤ '7') ↔ (c.toNat ≤ 55) := by
  simp [Char.le_def, UInt32.le_def, Char.toNat, UInt32.toNat, BitVec.le_def]

/-- A character passes the source's digit test and the `int(digit) > 7` test
iff it lies in the range `'0'..'7'`. -/
theorem char_digit_le7 (c : Char) :
    (c.isDigit = true ∧ c.toNat - Char.toNat '0' ≤ 7) ↔ ('0' ≤ c ∧ c ≤ '7') := by
  rw [char_le_toNat_left, char_le_toNat_right]
  simp [Char.isDigit, Char.le_def, UInt32.le_def, BitVec.le_def, Char.toNat, UInt32.toNat]
  omega

/- ===================== claim theorems ===================== -/

/-- Concrete item `file:a` with no dependencies, for the C1 failing input. -/
def lostItemA : InItem := ⟨"file:a", [], []⟩

/-- Concrete item `file:b` with no dependencies, for the C1 failing input. -/
def lostItemB : InItem := ⟨"file:b", [], []⟩

/-- C1: evaluating the embedded `apply_items` on the failing input — two
independent concrete items (an acyclic graph) with one worker. The reap phase
of the source replaces `items_without_deps` with only the freshly freed items
(node.py lines 117-123), so the still-ready `file:a` is discarded: the run
yields a result only for `file:b` and then raises the dependency error even
though no cycle exists, contradicting the claim that every concrete item
yields exactly one result. With two workers the same input succeeds with one
result per concrete item and none for the dummy. -/
theorem apply_items_loses_ready_items :
    (schedulerRun [lostItemA, lostItemB] 1).1 = ["file:b"]
    ∧ apply_items [lostItemA, lostItemB] 1 = .error ["file:"]
    ∧ apply_items [lostItemA, lostItemB] 2 = .ok ["file:b", "file:a"] :=
  ⟨by decide, rfl, rfl⟩

/-- C9: `Node.apply` uses worker count 1 whenever `interactive` is true, no
matter how many workers were requested, and passes the requested count
through unchanged when `interactive` is false (node.py line 226). -/
theorem node_apply_worker_count (items : List InItem) (w : Nat) :
    Node.apply items true w = apply_items items 1
    ∧ Node.apply items false w = apply_items items w :=
  ⟨rfl, rfl⟩

/-- C10: `File.validate_attributes` checks only the keys `content_type` and
`mode`; every entry under any other key is accepted because the validator
registry falls back to a no-op validator. -/
theorem validate_attributes_only_checks_known_keys (attrs : List (String × String)) :
    (validate_attributes attrs = true ↔
      ∀ kv ∈ attrs, (kv.1 = "content_type" → validator_content_type kv.2 = true)
        ∧ (kv.1 = "mode" → validator_mode kv.2 = true))
    ∧ (∀ k v : String, k ≠ "content_type" → k ≠ "mode" →
        ATTRIBUTE_VALIDATORS k v = true) := by
  constructor
  · rw [validate_attributes, List.all_eq_true]
    constructor
    · intro h kv hkv
      have hv := h kv hkv
      constructor
      · intro hk; rw [ATTRIBUTE_VALIDATORS, if_pos hk] at hv; exact hv
      · intro hk
        by_cases hk2 : kv.1 = "content_type"
        · exact absurd (hk ▸ hk2) (by decide)
        · rw [ATTRIBUTE_VALIDATORS, if_neg hk2, if_pos hk] at hv; exact hv
    · intro h kv hkv
      obtain ⟨h1, h2⟩ := h kv hkv
      rw [ATTRIBUTE_VALIDATORS]
      by_cases hk : kv.1 = "content_type"
      · rw [if_pos hk]; exact h1 hk
      · rw [if_neg hk]
        by_cases hk2 : kv.1 = "mode"
        · rw [if_pos hk2]; exact h2 hk2
        · rw [if_neg hk2]
  · intro k v h1 h2
    rw [ATTRIBUTE_VALIDATORS, if_neg h1, if_neg h2]

/-- C10 witness: a value that no real validator would accept passes under an
unknown key. -/
theorem validate_attributes_unknown_key_witness :
    ATTRIBUTE_VALIDATORS "owner" "not-even-a-user" = true :=
  (validate_attributes_only_checks_known_keys []).2 "owner" "not-even-a-user"
    (by decide) (by decide)

/-- C8: the embedded `validator_mode` accepts exactly the strings of three or
four characters all in `'0'..'7'`, and in particular accepts `"644"` and
`"0644"` while rejecting `""`, `"64"`, `"12345"`, `"648"` and `"-64"`. -/
theorem validator_mode_correct (s : String) :
    (validator_mode s = true ↔
      ((s.length = 3 ∨ s.length = 4) ∧ ∀ c ∈ s.data, '0' ≤ c ∧ c ≤ '7'))
    ∧ validator_mode "644" = true ∧ validator_mode "0644" = true
    ∧ validator_mode "" = false ∧ validator_mode "64" = false
    ∧ validator_mode "12345" = false ∧ validator_mode "648" = false
    ∧ validator_mode "-64" = false := by
  refine ⟨?_, by decide, by decide, by decide, by decide, by decide, by decide, by decide⟩
  rw [validator_mode]
  split_ifs with h1 h2 h3
  · simp only [Bool.not_eq_true', pyIsDigit] at h1
    simp only [false_iff, not_and]
    intro hlen hall
    have hne : s ≠ "" := by
      intro he; subst he; simp [String.length] at hlen
    have : (!s.isEmpty && s.data.all Char.isDigit) = true := by
      simp only [Bool.and_eq_true, Bool.not_eq_true', List.all_eq_true]
      constructor
      · cases h : s.isEmpty with
        | false => rfl
        | true => exact absurd ((String.isEmpty_iff s).mp h) hne
      · intro c hc
        exact ((char_digit_le7 c).mpr (hall c hc)).1
    rw [this] at h1; cases h1
  · simp only [List.any_eq_true, decide_eq_true_eq] at h2
    obtain ⟨c, hc, hgt⟩ := h2
    simp only [false_iff, not_and]
    intro hlen hall
    have := ((char_digit_le7 c).mpr (hall c hc)).2
    omega
  · simp only [Bool.and_eq_true, Bool.not_eq_true', decide_eq_false_iff_not] at h3
    simp only [false_iff, not_and]
    intro hlen _
    rcases hlen with h | h
    · exact h3.1 h
    · exact h3.2 h
  · simp only [Bool.not_eq_true', Bool.not_eq_false] at h1
    simp only [pyIsDigit, Bool.and_eq_true, Bool.not_eq_true', List.all_eq_true] at h1
    simp only [List.any_eq_true, decide_eq_true_eq, not_exists] at h2
    push_neg at h2
    simp only [Bool.and_eq_true, Bool.not_eq_true', decide_eq_false_iff_not, not_and] at h3
    simp only [true_iff]
    constructor
    · by_cases hl : s.length = 3
      · exact Or.inl hl
      · have h4 := h3 hl
        by_cases hl4 : s.length = 4
        · exact Or.inr hl4
        · exact absurd hl4 (fun hn => h4 hn)
    · intro c hc
      exact (char_digit_le7 c).mp ⟨h1.2 c hc, by have := h2 c hc; omega⟩
/- ===================== scheduler metatheory ===================== -/

theorem filter_not_length (l : List GItem) (p : GItem → Bool) :
    (l.filter (fun i => !p i)).length + (l.filter p).length = l.length := by
  induction l with
  | nil => rfl
  | cons x xs ih =>
    by_cases h : p x = true <;> simp [List.filter_cons, h] <;> omega

theorem split_length (l : List GItem) :
    (split_items_without_deps l).1.length + (split_items_without_deps l).2.length
      = l.length :=
  filter_not_length l (fun i => i.deps.isEmpty)

theorem reapAll_length (ds : List GItem) :
    ∀ pending ready acc, ds ≠ [] →
      (reapAll ds pending ready acc).1.length
        + (reapAll ds pending ready acc).2.1.length ≤ pending.length := by
  induction ds with
  | nil => intro _ _ _ h; cases h rfl
  | cons d rest ih =>
    intro pending ready acc _
    rw [reapAll]
    have hsplit := split_length (remove_dep_from_items pending d.id)
    have hlen : (remove_dep_from_items pending d.id).length = pending.length :=
      List.length_map _ _
    by_cases hr : rest = []
    · subst hr
      rw [reapAll]
      dsimp only
      omega
    · calc _ ≤ (split_items_without_deps (remove_dep_from_items pending d.id)).1.length := ih _ _ _ hr
        _ ≤ pending.length := by omega

theorem dispatched_ne_nil (w : Nat) (hw : 1 ≤ w) (ready : List GItem)
    (hr : ready ≠ []) : ready.reverse.take w ≠ [] := by
  intro h
  have hlen : (ready.reverse.take w).length = min w ready.length := by
    rw [List.length_take, List.length_reverse]
  rw [h] at hlen
  simp only [List.length_nil] at hlen
  have : ready.length ≠ 0 := fun h0 => hr (List.length_eq_zero.mp h0)
  omega

theorem schedLoop_fuel_irrel (w : Nat) (hw : 1 ≤ w) :
    ∀ f1 f2 ready pending acc,
      ready.length + pending.length < f1 →
      ready.length + pending.length < f2 →
      schedLoop w f1 ready pending acc = schedLoop w f2 ready pending acc := by
  intro f1
  induction f1 with
  | zero => intro f2 ready pending acc h1 _; omega
  | succ m ih =>
    intro f2 ready pending acc h1 h2
    cases f2 with
    | zero => omega
    | succ n =>
      rw [schedLoop, schedLoop]
      by_cases hre : ready.isEmpty = true
      · simp [hre]
      · simp only [hre, Bool.false_eq_true, if_false]
        have hrne : ready ≠ [] := by
          intro h; rw [h] at hre; exact hre rfl
        have hd := dispatched_ne_nil w hw ready hrne
        have hsz := reapAll_length (ready.reverse.take w) pending
          (ready.take (ready.length - w)) acc hd
        have hr1 : 1 ≤ ready.length := by
          have : ready.length ≠ 0 := fun h0 => hrne (List.length_eq_zero.mp h0)
          omega
        exact ih n _ _ _ (by omega) (by omega)

theorem mem_split_pending (l : List GItem) (g : GItem) :
    g ∈ (split_items_without_deps l).1 ↔ g ∈ l ∧ g.deps ≠ [] := by
  rw [split_items_without_deps]
  simp [List.mem_filter, List.isEmpty_iff]

theorem mem_split_ready (l : List GItem) (g : GItem) :
    g ∈ (split_items_without_deps l).2 ↔ g ∈ l ∧ g.deps = [] := by
  rw [split_items_without_deps]
  simp [List.mem_filter, List.isEmpty_iff]

theorem mem_remove_dep (l : List GItem) (dep : String) (g : GItem) :
    g ∈ remove_dep_from_items l dep
      ↔ ∃ g0 ∈ l, g = { g0 with deps := g0.deps.erase dep } := by
  rw [remove_dep_from_items]
  simp only [List.mem_map]
  constructor
  · rintro ⟨g0, h0, rfl⟩; exact ⟨g0, h0, rfl⟩
  · rintro ⟨g0, h0, rfl⟩; exact ⟨g0, h0, rfl⟩

theorem reapAll_stuck (dep xid : String) :
    ∀ ds pending ready acc,
      (∀ g ∈ ds, g.id ≠ dep) →
      (∀ g ∈ pending, g.id ≠ dep) →
      (∀ g ∈ ready, g.id ≠ dep) →
      (∃ g ∈ pending, g.id = xid ∧ dep ∈ g.deps) →
      (∀ g ∈ (reapAll ds pending ready acc).1, g.id ≠ dep)
      ∧ (∀ g ∈ (reapAll ds pending ready acc).2.1, g.id ≠ dep)
      ∧ (∃ g ∈ (reapAll ds pending ready acc).1, g.id = xid ∧ dep ∈ g.deps) := by
  intro ds
  induction ds with
  | nil =>
    intro pending ready acc _ hp hr hstuck
    exact ⟨hp, hr, hstuck⟩
  | cons d rest ih =>
    intro pending ready acc hds hp hr hstuck
    rw [reapAll]
    have hdid : d.id ≠ dep := hds d (List.mem_cons_self d rest)
    have hp' : ∀ g ∈ (split_items_without_deps (remove_dep_from_items pending d.id)).1,
        g.id ≠ dep := by
      intro g hg
      obtain ⟨hmem, _⟩ := (mem_split_pending _ g).mp hg
      obtain ⟨g0, h0, rfl⟩ := (mem_remove_dep _ _ g).mp hmem
      exact hp g0 h0
    have hr' : ∀ g ∈ (split_items_without_deps (remove_dep_from_items pending d.id)).2,
        g.id ≠ dep := by
      intro g hg
      obtain ⟨hmem, _⟩ := (mem_split_ready _ g).mp hg
      obtain ⟨g0, h0, rfl⟩ := (mem_remove_dep _ _ g).mp hmem
      exact hp g0 h0
    have hstuck' : ∃ g ∈ (split_items_without_deps (remove_dep_from_items pending d.id)).1,
        g.id = xid ∧ dep ∈ g.deps := by
      obtain ⟨g, hg, hid, hdepmem⟩ := hstuck
      refine ⟨{ g with deps := g.deps.erase d.id }, ?_, hid, ?_⟩
      · rw [mem_split_pending]
        constructor
        · rw [mem_remove_dep]; exact ⟨g, hg, rfl⟩
        · intro hnil
          have hmem2 : dep ∈ g.deps.erase d.id :=
            (List.mem_erase_of_ne (fun h => hdid h.symm)).mpr hdepmem
          dsimp only at hnil
          rw [hnil] at hmem2
          cases hmem2
      · exact (List.mem_erase_of_ne (fun h => hdid h.symm)).mpr hdepmem
    exact ih _ _ _ (fun g hg => hds g (List.mem_cons_of_mem d hg)) hp' hr' hstuck'

theorem schedLoop_stuck (w : Nat) (dep xid : String) :
    ∀ fuel ready pending acc,
      (∀ g ∈ ready, g.id ≠ dep) →
      (∀ g ∈ pending, g.id ≠ dep) →
      (∃ g ∈ pending, g.id = xid ∧ dep ∈ g.deps) →
      ∃ g ∈ (schedLoop w fuel ready pending acc).2, g.id = xid ∧ dep ∈ g.deps := by
  intro fuel
  induction fuel with
  | zero =>
    intro ready pending acc _ _ hstuck
    rw [schedLoop]
    obtain ⟨g, hg, h⟩ := hstuck
    exact ⟨g, List.mem_append_right _ hg, h⟩
  | succ n ih =>
    intro ready pending acc hr hp hstuck
    rw [schedLoop]
    by_cases hre : ready.isEmpty = true
    · simp only [hre, if_true]
      exact hstuck
    · simp only [hre, Bool.false_eq_true, if_false]
      have hds : ∀ g ∈ ready.reverse.take w, g.id ≠ dep := by
        intro g hg
        exact hr g (List.mem_reverse.mp (List.take_subset _ _ hg))
      have hrl : ∀ g ∈ ready.take (ready.length - w), g.id ≠ dep := by
        intro g hg
        exact hr g (List.take_subset _ _ hg)
      obtain ⟨h1, h2, h3⟩ := reapAll_stuck dep xid _ pending _ acc hds hp hrl hstuck
      exact ih _ _ _ h2 h1 h3

/-- C5: the main loop exits only when no item is ready (and, in the pool
model, nothing is busy or reapable); at that exit the leftover is exactly the
pending list, the fuel given to the loop by `schedulerRun` is irrelevant for
any worker count of at least one, and `apply_items` raises the dependency
error listing exactly the ids of the leftover pending items, returning the
yielded results otherwise. -/
theorem apply_items_cycle_error (items : List InItem) (w : Nat) (hw : 1 ≤ w) :
    (∀ f pend acc, schedLoop w (f + 1) [] pend acc = (acc.reverse, pend))
    ∧ (∀ f, (inject_dummy_items items).length < f →
        schedulerRun items w
          = schedLoop w f (split_items_without_deps (inject_dummy_items items)).2
              (split_items_without_deps (inject_dummy_items items)).1 [])
    ∧ ((schedulerRun items w).2 ≠ [] →
        apply_items items w
          = .error ((schedulerRun items w).2.map (fun i => i.id)))
    ∧ ((schedulerRun items w).2 = [] →
        apply_items items w = .ok (schedulerRun items w).1) := by
  refine ⟨?_, ?_, ?_, ?_⟩
  · intro f pend acc
    rw [schedLoop]
    simp
  · intro f hf
    rw [schedulerRun]
    apply schedLoop_fuel_irrel w hw
    · have := split_length (inject_dummy_items items)
      omega
    · have := split_length (inject_dummy_items items)
      omega
  · intro h
    rw [apply_items, if_neg (by simpa [List.isEmpty_iff] using h)]
  · intro h
    rw [apply_items, if_pos (by simpa [List.isEmpty_iff] using h)]

/-- C5 witness: on the two-item cycle `X→Y`, `Y→X` nothing is ever ready, the
loop exits immediately, and the error lists the dummy and both concrete
items — the entire pending set. -/
theorem apply_items_cycle_error_witness :
    apply_items [⟨"file:x", [], ["file:y"]⟩, ⟨"file:y", [], ["file:x"]⟩] 1
      = .error ["file:", "file:x", "file:y"] := by
  have h := (apply_items_cycle_error
    [⟨"file:x", [], ["file:y"]⟩, ⟨"file:y", [], ["file:x"]⟩] 1 (by decide)).2.2.1
    (by decide)
  exact h.trans (by rfl)

/-- C2 (amended): the graph builder performs no dependency-resolution check
and cannot fail; when an item carries a dependency id that matches no id in
the built graph, that item keeps the unresolved id in its deps forever, is
still pending when the loop exits, and the run fails only then, with the
end-of-run dependency error listing that item. -/
theorem unresolved_dep_fails_at_run_end (items : List InItem) (w : Nat)
    (X : InItem) (dep : String) (hX : X ∈ items)
    (hdep : dep ∈ X.dependsStatic ++ X.depends)
    (hunres : ∀ g ∈ inject_dummy_items items, g.id ≠ dep) :
    (∃ g ∈ (schedulerRun items w).2, g.id = X.id ∧ dep ∈ g.deps)
    ∧ ∃ l, apply_items items w = .error l ∧ X.id ∈ l := by
  have hgX : (⟨X.id, X.dependsStatic ++ X.depends, false⟩ : GItem)
      ∈ inject_dummy_items items := by
    rw [inject_dummy_items]
    exact List.mem_append_right _ (List.mem_map.mpr ⟨X, hX, rfl⟩)
  have hr : ∀ g ∈ (split_items_without_deps (inject_dummy_items items)).2,
      g.id ≠ dep := by
    intro g hg
    exact hunres g ((mem_split_ready _ g).mp hg).1
  have hp : ∀ g ∈ (split_items_without_deps (inject_dummy_items items)).1,
      g.id ≠ dep := by
    intro g hg
    exact hunres g ((mem_split_pending _ g).mp hg).1
  have hstuck : ∃ g ∈ (split_items_without_deps (inject_dummy_items items)).1,
      g.id = X.id ∧ dep ∈ g.deps := by
    refine ⟨⟨X.id, X.dependsStatic ++ X.depends, false⟩, ?_, rfl, hdep⟩
    rw [mem_split_pending]
    refine ⟨hgX, fun hnil => ?_⟩
    dsimp only at hnil
    rw [hnil] at hdep
    cases hdep
  have hmain : ∃ g ∈ (schedulerRun items w).2, g.id = X.id ∧ dep ∈ g.deps := by
    rw [schedulerRun]
    exact schedLoop_stuck w dep X.id ((inject_dummy_items items).length + 1)
      _ _ [] hr hp hstuck
  refine ⟨hmain, ?_⟩
  obtain ⟨g, hg, hid, _⟩ := hmain
  have hne : (schedulerRun items w).2 ≠ [] := by
    intro h0
    rw [h0] at hg
    cases hg
  exact ⟨(schedulerRun items w).2.map (fun i => i.id),
    by rw [apply_items, if_neg (by simpa [List.isEmpty_iff] using hne)],
    List.mem_map.mpr ⟨g, hg, hid⟩⟩

/-- C2 witness: the single item `pkg:k` depending on `ghost:nope` stays
pending (the `ghost:` dummy is materialized with no children, so `ghost:nope`
never resolves) and the run fails at the end with `pkg:k` listed. -/
theorem unresolved_dep_fails_at_run_end_witness :
    (∃ g ∈ (schedulerRun [⟨"pkg:k", [], ["ghost:nope"]⟩] 1).2,
        g.id = "pkg:k" ∧ "ghost:nope" ∈ g.deps)
    ∧ ∃ l, apply_items [⟨"pkg:k", [], ["ghost:nope"]⟩] 1 = .error l
        ∧ "pkg:k" ∈ l :=
  unresolved_dep_fails_at_run_end [⟨"pkg:k", [], ["ghost:nope"]⟩] 1
    ⟨"pkg:k", [], ["ghost:nope"]⟩ "ghost:nope"
    (by decide) (by decide) (by decide)

/-- C2 counterexample: on the unknown-dependency input the graph builder
succeeds (it materializes `ghost:` with no children and performs no
resolution check — there is no build-time `UnknownDependency` failure), and
the failure surfaces only as the end-of-run dependency error. -/
theorem unknown_dep_builder_never_fails :
    inject_dummy_items [⟨"pkg:k", [], ["ghost:nope"]⟩]
      = [⟨"pkg:", ["pkg:k"], true⟩, ⟨"ghost:", [], true⟩,
         ⟨"pkg:k", ["ghost:nope"], false⟩]
    ∧ apply_items [⟨"pkg:k", [], ["ghost:nope"]⟩] 1 = .error ["pkg:", "pkg:k"] :=
  ⟨rfl, rfl⟩

/-- C6 (amended): the graph builder initializes each concrete item's
`working_deps` to the CONCATENATION `DEPENDS_STATIC + depends` (duplicates
preserved, not a set union), and one reap removes only the first occurrence
of the reaped id, so an id duplicated across the two lists still appears
after the item it names has been reaped once. -/
theorem working_deps_concat_one_removal (items : List InItem) (i : InItem)
    (gs : List GItem) (g : GItem) (dep : String) (hi : i ∈ items)
    (hg : g ∈ gs) (hdup : 2 ≤ g.deps.count dep) :
    (⟨i.id, i.dependsStatic ++ i.depends, false⟩ : GItem) ∈ inject_dummy_items items
    ∧ ∃ g' ∈ remove_dep_from_items gs dep,
        g'.id = g.id ∧ dep ∈ g'.deps
        ∧ g'.deps.count dep = g.deps.count dep - 1 := by
  constructor
  · rw [inject_dummy_items]
    exact List.mem_append_right _ (List.mem_map.mpr ⟨i, hi, rfl⟩)
  · refine ⟨{ g with deps := g.deps.erase dep }, ?_, rfl, ?_, ?_⟩
    · rw [mem_remove_dep]
      exact ⟨g, hg, rfl⟩
    · dsimp only
      have hcount : (g.deps.erase dep).count dep = g.deps.count dep - 1 :=
        List.count_erase_self dep g.deps
      have : 1 ≤ (g.deps.erase dep).count dep := by omega
      exact List.count_pos_iff.mp (by omega)
    · dsimp only
      exact List.count_erase_self dep g.deps

/-- C6 witness: with `DEPENDS_STATIC = ["file:x"]` and `depends = ["file:x"]`
the item `pkg:y` enters the graph with the id duplicated, and after `file:x`
is reaped once the id still appears. -/
theorem working_deps_concat_one_removal_witness :
    (⟨"pkg:y", ["file:x", "file:x"], false⟩ : GItem)
      ∈ inject_dummy_items [⟨"file:x", [], []⟩, ⟨"pkg:y", ["file:x"], ["file:x"]⟩]
    ∧ ∃ g' ∈ remove_dep_from_items [⟨"pkg:y", ["file:x", "file:x"], false⟩] "file:x",
        g'.id = "pkg:y" ∧ "file:x" ∈ g'.deps
        ∧ g'.deps.count "file:x" = (["file:x", "file:x"] : List String).count "file:x" - 1 :=
  working_deps_concat_one_removal
    [⟨"file:x", [], []⟩, ⟨"pkg:y", ["file:x"], ["file:x"]⟩]
    ⟨"pkg:y", ["file:x"], ["file:x"]⟩
    [⟨"pkg:y", ["file:x", "file:x"], false⟩]
    ⟨"pkg:y", ["file:x", "file:x"], false⟩ "file:x"
    (by decide) (by decide) (by decide)

/-- C6 counterexample: the claim's "set union" initialization fails — the
duplicated dependency id `file:x` appears twice in `pkg:y`'s working deps,
one reap leaves one occurrence behind, and the whole run then deadlocks into
the end-of-run dependency error even with plenty of workers. -/
theorem working_deps_not_set_union :
    inject_dummy_items [⟨"file:x", [], []⟩, ⟨"pkg:y", ["file:x"], ["file:x"]⟩]
      = [⟨"file:", ["file:x"], true⟩, ⟨"pkg:", ["pkg:y"], true⟩,
         ⟨"file:x", [], false⟩, ⟨"pkg:y", ["file:x", "file:x"], false⟩]
    ∧ remove_dep_from_items [⟨"pkg:y", ["file:x", "file:x"], false⟩] "file:x"
        = [⟨"pkg:y", ["file:x"], false⟩]
    ∧ apply_items [⟨"file:x", [], []⟩, ⟨"pkg:y", ["file:x"], ["file:x"]⟩] 4
        = .error ["pkg:", "pkg:y"] :=
  ⟨rfl, rfl, rfl⟩

/- ===================== node.py : ApplyResult aggregator ===================== -/

/-- A before/after status record as the aggregator reads it: the boolean
fields `correct`, `fixable`, `aborted`. -/
structure ItemStatus where
  correct : Bool
  fixable : Bool
  aborted : Bool
deriving DecidableEq, Repr

/-- Which of the five counters a (before, after) pair falls into. -/
inductive ResultClass where
  | correct
  | aborted
  | unfixable
  | fixed
  | failed
deriving DecidableEq, Repr

/-- The if/elif chain of `ApplyResult.__init__` (node.py lines 21-31): the
first matching clause wins; `none` is the fall-through `else` that raises
`RuntimeError` in the source. -/
def classify (before after : ItemStatus) : Option ResultClass :=
  if before.correct && after.correct then some .correct
  else if after.aborted then some .aborted
  else if !before.fixable || !after.fixable then some .unfixable
  else if !before.correct && after.correct then some .fixed
  else if !before.correct && !after.correct then some .failed
  else none

/-- The five counters of an `ApplyResult`. -/
structure ApplyCounters where
  correct : Nat
  fixed : Nat
  aborted : Nat
  unfixable : Nat
  failed : Nat
deriving DecidableEq, Repr

/-- Increment the one counter chosen by the matched clause. -/
def bumpCounter (r : ApplyCounters) : ResultClass → ApplyCounters
  | .correct => { r with correct := r.correct + 1 }
  | .aborted => { r with aborted := r.aborted + 1 }
  | .unfixable => { r with unfixable := r.unfixable + 1 }
  | .fixed => { r with fixed := r.fixed + 1 }
  | .failed => { r with failed := r.failed + 1 }

/-- The loop of `ApplyResult.__init__` (node.py lines 20-36) from a given
counter state: classify each pair in order, bump the matched counter, and
raise (`.error`) at the first pair matching no clause. -/
def ApplyResult_init_from (r : ApplyCounters) :
    List (ItemStatus × ItemStatus) → Except Unit ApplyCounters
  | [] => .ok r
  | p :: rest =>
    match classify p.1 p.2 with
    | some c => ApplyResult_init_from (bumpCounter r c) rest
    | none => .error ()

/-- Embeds `ApplyResult.__init__` (node.py lines 13-36): all counters start
at zero. -/
def ApplyResult_init (pairs : List (ItemStatus × ItemStatus)) :
    Except Unit ApplyCounters :=
  ApplyResult_init_from ⟨0, 0, 0, 0, 0⟩ pairs

theorem init_from_spec (pairs : List (ItemStatus × ItemStatus)) :
    ∀ r0 : ApplyCounters,
      (ApplyResult_init_from r0 pairs = .error ()
        ↔ ∃ p ∈ pairs, classify p.1 p.2 = none)
      ∧ (∀ r, ApplyResult_init_from r0 pairs = .ok r →
          r.correct = r0.correct
            + pairs.countP (fun p => classify p.1 p.2 == some .correct)
          ∧ r.aborted = r0.aborted
            + pairs.countP (fun p => classify p.1 p.2 == some .aborted)
          ∧ r.unfixable = r0.unfixable
            + pairs.countP (fun p => classify p.1 p.2 == some .unfixable)
          ∧ r.fixed = r0.fixed
            + pairs.countP (fun p => classify p.1 p.2 == some .fixed)
          ∧ r.failed = r0.failed
            + pairs.countP (fun p => classify p.1 p.2 == some .failed)
          ∧ r.correct + r.aborted + r.unfixable + r.fixed + r.failed
            = r0.correct + r0.aborted + r0.unfixable + r0.fixed + r0.failed
              + pairs.length) := by
  induction pairs with
  | nil =>
    intro r0
    constructor
    · constructor
      · intro h; cases h
      · rintro ⟨p, hp, _⟩; cases hp
    · intro r hr
      rw [ApplyResult_init_from] at hr
      cases hr
      simp [List.countP_nil]
  | cons p rest ih =>
    intro r0
    rw [ApplyResult_init_from]
    cases hc : classify p.1 p.2 with
    | none =>
      constructor
      · constructor
        · intro _; exact ⟨p, List.mem_cons_self p rest, hc⟩
        · intro _; rfl
      · intro r hr; cases hr
    | some c =>
      have ihc := ih (bumpCounter r0 c)
      constructor
      · rw [ihc.1]
        constructor
        · rintro ⟨q, hq, hqc⟩
          exact ⟨q, List.mem_cons_of_mem p hq, hqc⟩
        · rintro ⟨q, hq, hqc⟩
          rcases List.mem_cons.mp hq with rfl | hq2
          · rw [hc] at hqc; cases hqc
          · exact ⟨q, hq2, hqc⟩
      · intro r hr
        have hfields := ihc.2 r hr
        rcases c <;>
          simp [List.countP_cons, hc, bumpCounter] at hfields ⊢ <;>
          omega

/-- C4: the aggregator classifies every (before, after) pair by the first
matching clause in the order correct, aborted, unfixable, fixed, failed
(each clause shown with the negations of all earlier ones); a pair matching
no clause — exactly before-correct, after-incorrect, not aborted, both
fixable — raises the inconsistency error, in which case the whole run
errors; otherwise each counter equals the number of pairs whose first
matching clause it is, and the five counters sum to the number of pairs. -/
theorem apply_result_aggregation (pairs : List (ItemStatus × ItemStatus)) :
    (∀ b a : ItemStatus,
      (classify b a = some .correct ↔ (b.correct = true ∧ a.correct = true))
      ∧ (classify b a = some .aborted
          ↔ (a.aborted = true ∧ ¬(b.correct = true ∧ a.correct = true)))
      ∧ (classify b a = some .unfixable
          ↔ ((b.fixable = false ∨ a.fixable = false) ∧ a.aborted = false
              ∧ ¬(b.correct = true ∧ a.correct = true)))
      ∧ (classify b a = some .fixed
          ↔ (b.correct = false ∧ a.correct = true ∧ b.fixable = true
              ∧ a.fixable = true ∧ a.aborted = false))
      ∧ (classify b a = some .failed
          ↔ (b.correct = false ∧ a.correct = false ∧ b.fixable = true
              ∧ a.fixable = true ∧ a.aborted = false))
      ∧ (classify b a = none
          ↔ (b.correct = true ∧ a.correct = false ∧ a.aborted = false
              ∧ b.fixable = true ∧ a.fixable = true)))
    ∧ (ApplyResult_init pairs = .error ()
        ↔ ∃ p ∈ pairs, classify p.1 p.2 = none)
    ∧ (∀ r, ApplyResult_init pairs = .ok r →
        r.correct = pairs.countP (fun p => classify p.1 p.2 == some .correct)
        ∧ r.aborted = pairs.countP (fun p => classify p.1 p.2 == some .aborted)
        ∧ r.unfixable = pairs.countP (fun p => classify p.1 p.2 == some .unfixable)
        ∧ r.fixed = pairs.countP (fun p => classify p.1 p.2 == some .fixed)
        ∧ r.failed = pairs.countP (fun p => classify p.1 p.2 == some .failed)
        ∧ r.correct + r.aborted + r.unfixable + r.fixed + r.failed
          = pairs.length) := by
  refine ⟨?_, ?_, ?_⟩
  · intro b a
    rcases b with ⟨bc, bf, bab⟩
    rcases a with ⟨ac, af, aab⟩
    rcases bc <;> rcases bf <;> rcases bab <;> rcases ac <;> rcases af
      <;> rcases aab <;> decide
  · exact (init_from_spec pairs ⟨0, 0, 0, 0, 0⟩).1
  · intro r hr
    have h := (init_from_spec pairs ⟨0, 0, 0, 0, 0⟩).2 r hr
    simpa using h

/-- C4 witness: one pair that was incorrect before and correct after is
counted as `fixed`, and the counters sum to the single pair processed. -/
theorem apply_result_aggregation_witness :
    ApplyResult_init [(⟨false, true, false⟩, ⟨true, true, false⟩)]
      = .ok ⟨0, 1, 0, 0, 0⟩
    ∧ (⟨0, 1, 0, 0, 0⟩ : ApplyCounters).correct
        + (⟨0, 1, 0, 0, 0⟩ : ApplyCounters).aborted
        + (⟨0, 1, 0, 0, 0⟩ : ApplyCounters).unfixable
        + (⟨0, 1, 0, 0, 0⟩ : ApplyCounters).fixed
        + (⟨0, 1, 0, 0, 0⟩ : ApplyCounters).failed
      = [((⟨false, true, false⟩ : ItemStatus), (⟨true, true, false⟩ : ItemStatus))].length :=
  ⟨rfl, ((apply_result_aggregation
      [(⟨false, true, false⟩, ⟨true, true, false⟩)]).2.2
      ⟨0, 1, 0, 0, 0⟩ rfl).2.2.2.2.2⟩

/- ===================== utils/metastack.py : metadata values ===================== -/

mutual
/-- A metadata value as in the spec's data model (section 3): scalars, lists
and string-keyed mappings; the mapping and list spines are their own
inductives so that equality is derivable. -/
inductive Value where
  | null : Value
  | bool (b : Bool) : Value
  | int (n : Int) : Value
  | str (s : String) : Value
  | list (l : ValueList) : Value
  | map (m : ValueMap) : Value
deriving DecidableEq
/-- The spine of a list of metadata values. -/
inductive ValueList where
  | nil : ValueList
  | cons (v : Value) (tl : ValueList) : ValueList
deriving DecidableEq
/-- The spine of an insertion-ordered mapping from string keys to metadata
values. -/
inductive ValueMap where
  | nil : ValueMap
  | cons (k : String) (v : Value) (tl : ValueMap) : ValueMap
deriving DecidableEq
end

/-- First value stored under a key, if any. -/
def ValueMap.lookup : ValueMap → String → Option Value
  | .nil, _ => none
  | .cons k v tl, key => if k = key then some v else tl.lookup key

/-- Whether the key is present. -/
def ValueMap.hasKey (m : ValueMap) (key : String) : Bool :=
  (m.lookup key).isSome

/-- Concatenation of two mapping spines. -/
def ValueMap.append : ValueMap → ValueMap → ValueMap
  | .nil, o => o
  | .cons k v tl, o => .cons k v (tl.append o)

/-- The entries whose key is absent from `base`, in order. -/
def ValueMap.dropKeys : ValueMap → ValueMap → ValueMap
  | .nil, _ => .nil
  | .cons k v tl, base =>
    if base.hasKey k then tl.dropKeys base else .cons k v (tl.dropKeys base)

mutual
/-- Modelled from the spec: `merge_dict` (section 4.A `deep_merge`; its
source module `bundlewrap/utils/dicts.py` is not in the repository). Two
mappings merge key-wise recursively (base keys first, then overlay-only
keys); in every other combination the overlay wins wholesale. -/
def Value.merge : Value → Value → Value
  | .map b, .map o => .map ((ValueMap.mergeInto b o).append (o.dropKeys b))
  | _, overlay => overlay
/-- Key-wise merge of the base spine against the overlay mapping. -/
def ValueMap.mergeInto : ValueMap → ValueMap → ValueMap
  | .nil, _ => .nil
  | .cons k v tl, o =>
    match o.lookup k with
    | some w => .cons k (v.merge w) (tl.mergeInto o)
    | none => .cons k v (tl.mergeInto o)
end

/-- Modelled from the spec: `value_at_key_path` (section 4.A
`value_at_path`; its source module `bundlewrap/metadata.py` is not in the
repository). Descends mapping by mapping; `none` is the `KeyError` the
caller catches, raised when a segment is missing or the descent hits a
non-mapping. -/
def value_at_key_path : Value → List String → Option Value
  | v, [] => some v
  | .map m, k :: ks =>
    match m.lookup k with
    | some v => value_at_key_path v ks
    | none => none
  | _, _ :: _ => none

/-- Modelled from the spec: `freeze_object` (section 4.A `deep_freeze`; its
source module is not in the repository) returns a structurally immutable
snapshot of the tree. In this pure embedding every value is already
immutable, so freezing is the identity on the tree structure. -/
def freeze_object (v : Value) : Value := v

/-- Modelled from the spec: `validate_metadata` (section 4.A `validate`; its
source module is not in the repository) accepts exactly the layers whose
root is a mapping (string keys hold by construction here). -/
def validate_metadata : Value → Bool
  | .map _ => true
  | _ => false

/- ===================== utils/metastack.py : Metastack ===================== -/

/-- A Metastack: the insertion-ordered `_layers` dict as an association
list from layer identifier to layer (metastack.py lines 8-14). -/
structure Metastack where
  layers : List (String × Value)
deriving DecidableEq

/-- A fresh Metastack has no layers. -/
def Metastack.empty : Metastack := ⟨[]⟩

/-- The `{'data': value}` wrapper the source threads through `merge_dict`
(metastack.py lines 31-34). -/
def wrapData (v : Value) : Value :=
  .map (.cons "data" v .nil)

/-- One iteration of the layer loop of `Metastack.get` (metastack.py lines
23-34): a `KeyError` from `value_at_key_path` skips the layer; the first
value found seeds the `{'data': value}` wrapper (`undef` becomes false),
later values are merged in via `merge_dict`. -/
def getStep (path : List String) (acc : Option Value) (kv : String × Value) :
    Option Value :=
  match value_at_key_path kv.2 path with
  | none => acc
  | some value =>
    match acc with
    | none => some (wrapData value)
    | some r => some (r.merge (wrapData value))

/-- The layer loop of `Metastack.get` (metastack.py lines 20-34): `none`
plays `undef = True`, otherwise the accumulator holds the wrapper dict. -/
def getFold (layers : List (String × Value)) (path : List String) :
    Option Value :=
  layers.foldl (getStep path) none

/-- Embeds `Metastack.get` (metastack.py lines 16-42) for a path already
given as a list of keys (the string form is split on `/` by the caller
interface). `.error` is the `MetastackKeyError`; the unreachable inner
errors model the `KeyError` a malformed accumulator would raise. -/
def Metastack.get (ms : Metastack) (path : List String) (default : Value)
    (use_default : Bool) : Except Unit Value :=
  match getFold ms.layers path with
  | none => if use_default then .ok default else .error ()
  | some r =>
    match r with
    | .map m =>
      match m.lookup "data" with
      | some v => .ok (freeze_object v)
      | none => .error ()
    | _ => .error ()

/-- Embeds `Metastack.has` (metastack.py lines 44-49): `get` with
`use_default=False`, catching `MetastackKeyError`. -/
def Metastack.has (ms : Metastack) (path : List String) : Bool :=
  match ms.get path .null false with
  | .ok _ => true
  | .error _ => false

/-- The values the layers contribute at a path, in insertion order,
skipping layers where the path is absent. -/
def foundValues (ms : Metastack) (path : List String) : List Value :=
  ms.layers.filterMap (fun kv => value_at_key_path kv.2 path)

/- ===================== Metastack metatheory ===================== -/

theorem wrap_merge (a b : Value) :
    (wrapData a).merge (wrapData b) = wrapData (a.merge b) := by
  simp [wrapData, Value.merge, ValueMap.mergeInto, ValueMap.lookup,
    ValueMap.dropKeys, ValueMap.hasKey, ValueMap.append]

theorem getFold_some (path : List String) :
    ∀ (layers : List (String × Value)) (v0 : Value),
      layers.foldl (getStep path) (some (wrapData v0))
        = some (wrapData
            ((layers.filterMap (fun kv => value_at_key_path kv.2 path)).foldl
              Value.merge v0)) := by
  intro layers
  induction layers with
  | nil => intro v0; rfl
  | cons kv rest ih =>
    intro v0
    rw [List.foldl_cons, List.filterMap_cons]
    cases hv : value_at_key_path kv.2 path with
    | none =>
      rw [show getStep path (some (wrapData v0)) kv = some (wrapData v0) by
        rw [getStep, hv]]
      exact ih v0
    | some v =>
      rw [show getStep path (some (wrapData v0)) kv
            = some ((wrapData v0).merge (wrapData v)) by
        rw [getStep, hv]]
      rw [wrap_merge, ih (v0.merge v), List.foldl_cons]

theorem getFold_spec (path : List String) :
    ∀ layers : List (String × Value),
      getFold layers path
        = match layers.filterMap (fun kv => value_at_key_path kv.2 path) with
          | [] => none
          | v :: vs => some (wrapData (vs.foldl Value.merge v)) := by
  intro layers
  rw [getFold]
  induction layers with
  | nil => rfl
  | cons kv rest ih =>
    rw [List.foldl_cons, List.filterMap_cons]
    cases hv : value_at_key_path kv.2 path with
    | none =>
      rw [show getStep path none kv = none by rw [getStep, hv]]
      exact ih
    | some v =>
      rw [show getStep path none kv = some (wrapData v) by rw [getStep, hv]]
      exact getFold_some path rest v

/-- C3: `Metastack.get` iterates the layers in insertion order, skips layers
where the path is absent, and when at least one layer produced a value
returns the deep-freeze of the in-order deep-merge of those values (earlier
layers the base, later layers the overlay); when no layer has the path it
returns the default iff `use_default`, raising `MetastackKeyError`
otherwise; on the empty Metastack `get` returns the default and `has` is
false. -/
theorem metastack_get_merges_found_values (ms : Metastack) (path : List String)
    (d : Value) (ud : Bool) :
    (ms.get path d ud
      = match foundValues ms path with
        | [] => if ud then .ok d else .error ()
        | v :: vs => .ok (freeze_object (vs.foldl Value.merge v)))
    ∧ Metastack.empty.get path d true = .ok d
    ∧ Metastack.empty.has path = false := by
  refine ⟨?_, rfl, rfl⟩
  rw [Metastack.get, foundValues, getFold_spec path ms.layers]
  cases ms.layers.filterMap (fun kv => value_at_key_path kv.2 path) with
  | nil => rfl
  | cons v vs =>
    dsimp only
    simp [wrapData, ValueMap.lookup]

/- ===================== utils/metastack.py : _set_layer ===================== -/

/-- Python dict assignment `self._layers[identifier] = new_layer` on the
insertion-ordered association list: an existing identifier keeps its
position, a fresh one is appended at the end. -/
def set_layer_entry : List (String × Value) → String → Value →
    List (String × Value)
  | [], ident, l => [(ident, l)]
  | kv :: tl, ident, l =>
    if kv.1 = ident then (kv.1, l) :: tl else kv :: set_layer_entry tl ident l

/-- Python `self._layers.get(identifier)`: the layer stored under the
identifier, if any. -/
def lookupLayer (layers : List (String × Value)) (ident : String) :
    Option Value :=
  (layers.find? (fun kv => kv.1 = ident)).map Prod.snd

/-- Embeds `Metastack._set_layer` (metastack.py lines 63-69): validate the
layer, compute `changed = (self._layers.get(identifier, {}) != new_layer)` —
note the missing-layer default is the EMPTY DICT, not a "was absent" flag —
then store the layer. `.error` is the validation failure. -/
def Metastack._set_layer (ms : Metastack) (identifier : String)
    (new_layer : Value) : Except Unit (Bool × Metastack) :=
  if validate_metadata new_layer then
    .ok (decide ((lookupLayer ms.layers identifier).getD (Value.map .nil)
          ≠ new_layer),
         ⟨set_layer_entry ms.layers identifier new_layer⟩)
  else .error ()

theorem lookup_set_layer_entry (ident : String) (L : Value) :
    ∀ layers : List (String × Value),
      lookupLayer (set_layer_entry layers ident L) ident = some L := by
  intro layers
  induction layers with
  | nil => simp [set_layer_entry, lookupLayer, List.find?]
  | cons kv tl ih =>
    rw [set_layer_entry]
    by_cases h : kv.1 = ident
    · simp [h, lookupLayer, List.find?]
    · rw [if_neg h]
      simpa [lookupLayer, List.find?, h] using ih

theorem set_layer_entry_idem (ident : String) (L : Value) :
    ∀ layers : List (String × Value),
      set_layer_entry (set_layer_entry layers ident L) ident L
        = set_layer_entry layers ident L := by
  intro layers
  induction layers with
  | nil => simp [set_layer_entry]
  | cons kv tl ih =>
    rw [set_layer_entry]
    by_cases h : kv.1 = ident
    · simp [set_layer_entry, h]
    · simp only [h, if_false]
      rw [set_layer_entry]
      simp only [h, if_false]
      rw [ih]

/-- C7 (amended): `_set_layer` returns `changed` true iff the new layer
differs structurally from the previously stored layer, TREATING A MISSING
LAYER AS THE EMPTY MAPPING (so storing an empty layer under a fresh
identifier reports `changed = false`); calling it twice in a row with the
same identifier and layer makes the second call return `changed = false`
and leave the stack unchanged; an invalid layer is rejected. -/
theorem set_layer_changed_flag (ms : Metastack) (ident : String) (L : Value) :
    (validate_metadata L = true →
      ms._set_layer ident L
        = .ok (decide ((lookupLayer ms.layers ident).getD (Value.map .nil) ≠ L),
               ⟨set_layer_entry ms.layers ident L⟩))
    ∧ (∀ changed ms', ms._set_layer ident L = .ok (changed, ms') →
        ms'._set_layer ident L = .ok (false, ms'))
    ∧ (validate_metadata L = false → ms._set_layer ident L = .error ()) := by
  refine ⟨?_, ?_, ?_⟩
  · intro hv
    rw [Metastack._set_layer, if_pos hv]
  · intro changed ms' h
    rw [Metastack._set_layer] at h
    by_cases hv : validate_metadata L = true
    · rw [if_pos hv] at h
      have hms' : ms' = ⟨set_layer_entry ms.layers ident L⟩ := by
        cases h
        rfl
      subst hms'
      rw [Metastack._set_layer, if_pos hv]
      rw [show (⟨set_layer_entry ms.layers ident L⟩ : Metastack).layers
            = set_layer_entry ms.layers ident L from rfl]
      rw [lookup_set_layer_entry, set_layer_entry_idem]
      simp
    · rw [if_neg hv] at h
      cases h
  · intro hv
    rw [Metastack._set_layer, if_neg (by rw [hv]; exact Bool.false_ne_true)]

/-- C7 witness: setting a non-empty layer on an empty stack reports
`changed = true`; repeating the identical call reports `changed = false`
and leaves the stack as it was. -/
theorem set_layer_changed_flag_witness :
    Metastack.empty._set_layer "x" (Value.map (.cons "a" (.int 1) .nil))
      = .ok (true, ⟨[("x", Value.map (.cons "a" (.int 1) .nil))]⟩)
    ∧ (⟨[("x", Value.map (.cons "a" (.int 1) .nil))]⟩ : Metastack)._set_layer "x"
        (Value.map (.cons "a" (.int 1) .nil))
      = .ok (false, ⟨[("x", Value.map (.cons "a" (.int 1) .nil))]⟩) := by
  have h := set_layer_changed_flag Metastack.empty "x"
    (Value.map (.cons "a" (.int 1) .nil))
  refine ⟨?_, ?_⟩
  · exact (h.1 rfl).trans (by rfl)
  · exact h.2.1 true ⟨[("x", Value.map (.cons "a" (.int 1) .nil))]⟩
      ((h.1 rfl).trans (by rfl))

/-- C7 counterexample: under the identifier `base` nothing was ever stored,
yet `_set_layer` with the empty mapping returns `changed = false`, because
the source compares against the default `{}` rather than recording that no
layer existed. -/
theorem set_layer_fresh_empty_layer_unchanged :
    lookupLayer Metastack.empty.layers "base" = none
    ∧ Metastack.empty._set_layer "base" (Value.map .nil)
        = .ok (false, ⟨[("base", Value.map .nil)]⟩) :=
  ⟨rfl, rfl⟩
